import Mathlib

/-!
# Verification of the mood/productivity journal backend (`app.py`)

Shallow embedding of the Flask mood-tracker application: the validators,
the CSV record store (`load_all_logs` / `save_log` / `save_all_logs`),
the aggregator (`get_summary` / `get_insights`) and the request handlers
(`add_log` / `edit_log` / `delete_log`), together with theorems settling
the frozen claims about them.

Modelling conventions:
* Python runtime values arriving from JSON are modelled by `PyValue`
  (null, bool, int, float, str); floats are modelled as exact rationals,
  which is faithful for the finite float values discussed here.
* Python exceptions are modelled with `Except PyErr`; a function that the
  source wraps in `try/except ValueError` catches exactly `.valueError`.
* Strings are sequences of unicode scalars; `\d` in CPython's
  `_strptime` regexes and `str.lower` are modelled over ASCII (the
  non-ASCII-digit/case corners of the Python runtime are outside the
  model).  String manipulation is implemented over `List Char` so that
  every definition evaluates by kernel reduction.
* Wall-clock time (`datetime.now()`) is a parameter: `get_insights`
  receives the already-formatted cutoff string `today - 7 days`.
* Averages are kept as exact rationals (`Rat.divInt sum len`); the
  source computes them as floats and the threshold/maximum comparisons
  below agree with the float comparisons for every realistically sized
  collection (the quotient is within 1/len of a threshold only when
  equal to it).  `round(x, 2)` display rounding of averages is not
  modelled; no claim depends on the rounded digits.
-/

deriving instance DecidableEq for Except

/-- Python exceptions that the embedded code can raise. -/
inductive PyErr where
  | valueError
  | typeError
  | attributeError
  | keyError
  deriving DecidableEq, Repr

/-- JSON-derived Python runtime values reaching the validators/handlers. -/
inductive PyValue where
  | none
  | bool (b : Bool)
  | int (n : ℤ)
  | float (q : ℚ)
  | str (s : String)
  deriving DecidableEq, Repr

/-- Is `c` one of the ASCII whitespace characters stripped by `int(str)`. -/
def isPySpace (c : Char) : Bool :=
  c = ' ' || c = '\t' || c = '\n' || c = '\x0d' || c = '\x0b' || c = '\x0c'

/-- Numeric value of an ASCII digit character. -/
def digitVal (c : Char) : ℕ := c.toNat - 48

/-- Digit run of a Python integer literal: nonempty digits, with single
underscores allowed between digits (`int("1_0") = 10`). -/
def pyDigits : List Char → Option ℕ
  | [] => Option.none
  | c :: cs => if c.isDigit then pyDigitsGo (digitVal c) cs else Option.none
where
  pyDigitsGo (acc : ℕ) : List Char → Option ℕ
    | [] => Option.some acc
    | '_' :: c :: cs =>
        if c.isDigit then pyDigitsGo (acc * 10 + digitVal c) cs else Option.none
    | '_' :: [] => Option.none
    | c :: cs =>
        if c.isDigit then pyDigitsGo (acc * 10 + digitVal c) cs else Option.none

/-- `int(s)` for a string `s`: strip ASCII whitespace, optional sign,
then a digit run; `Option.none` models `ValueError`. -/
def parseIntSigned : List Char → Option ℤ
  | [] => Option.none
  | c :: rest =>
      if c = '+' then (pyDigits rest).map (fun n => (n : ℤ))
      else if c = '-' then (pyDigits rest).map (fun n => -(n : ℤ))
      else (pyDigits (c :: rest)).map (fun n => (n : ℤ))

/-- See `parseIntSigned` for the sign handling after stripping. -/
def parseIntPy (s : String) : Option ℤ :=
  parseIntSigned (((s.data.dropWhile isPySpace).reverse.dropWhile isPySpace).reverse)

/-- `int(float)`: truncation toward zero of the exact rational value. -/
def ratTrunc (q : ℚ) : ℤ :=
  if 0 ≤ q.num then ((q.num.toNat / q.den : ℕ) : ℤ)
  else -(((-q.num).toNat / q.den : ℕ) : ℤ)

/-- Python's `int(...)` conversion on the modelled values:
identity on ints, `True ↦ 1 / False ↦ 0`, truncation on floats,
literal parsing on strings (`ValueError` on failure), `TypeError` on
`None`. -/
def pyInt : PyValue → Except PyErr ℤ
  | .int n => .ok n
  | .bool b => .ok (cond b 1 0)
  | .float q => .ok (ratTrunc q)
  | .str s =>
      match parseIntPy s with
      | Option.some n => .ok n
      | Option.none => .error .valueError
  | .none => .error .typeError

/-! ## Validator: dates (`MoodTracker.validate_date`)

`datetime.strptime(s, '%Y-%m-%d')` matches the anchored whole-string
regex `(\d\d\d\d)-(1[0-2]|0[1-9]|[1-9])-(3[01]|[12]\d|0[1-9]|[1-9])`
(exactly four year digits; one-or-two-digit month and day, zero padding
NOT required) and then builds `datetime(y, m, d)`, which raises
`ValueError` unless `1 ≤ y` and the day exists in the month.  Since the
three fields are digit-only and the separator is a dash, the regex match
succeeds exactly when splitting on dashes yields three such digit
fields whose month/day values are in range; the range alternations of
the month and day groups coincide with the value bounds checked by the
`datetime` constructor and in `isRealDate` below. -/

/-- Split a character list at every dash, like Python's regex fields:
`splitDash "a-b".data = ["a".data, "b".data]`. -/
def splitDash : List Char → List (List Char)
  | [] => [[]]
  | '-' :: cs => [] :: splitDash cs
  | c :: cs =>
      match splitDash cs with
      | [] => [[c]]
      | f :: rest => (c :: f) :: rest

/-- String of decimal digits to its numeric value. -/
def digitsToNat (cs : List Char) : ℕ :=
  cs.foldl (fun acc c => acc * 10 + digitVal c) 0

/-- Shape parse of `%Y-%m-%d`: exactly three dash-separated fields, the
year exactly 4 digits, month and day 1 or 2 digits each. -/
def parseDate (s : String) : Option (ℕ × ℕ × ℕ) :=
  match splitDash s.data with
  | [ys, ms, ds] =>
      if ys.length = 4 && ys.all Char.isDigit &&
         decide (1 ≤ ms.length) && decide (ms.length ≤ 2) && ms.all Char.isDigit &&
         decide (1 ≤ ds.length) && decide (ds.length ≤ 2) && ds.all Char.isDigit
      then Option.some (digitsToNat ys, digitsToNat ms, digitsToNat ds)
      else Option.none
  | _ => Option.none

/-- Gregorian leap year. -/
def isLeapYear (y : ℕ) : Bool :=
  y % 4 = 0 && (y % 100 ≠ 0 || y % 400 = 0)

/-- Number of days in month `m` of year `y`. -/
def daysInMonth (y m : ℕ) : ℕ :=
  if m = 2 then (if isLeapYear y then 29 else 28)
  else if m = 4 || m = 6 || m = 9 || m = 11 then 30
  else 31

/-- Does `(y, m, d)` denote an existing `datetime` date (year ≥ 1)? -/
def isRealDate (y m d : ℕ) : Bool :=
  1 ≤ y && 1 ≤ m && m ≤ 12 && 1 ≤ d && d ≤ daysInMonth y m

/-- `datetime.strptime(s, '%Y-%m-%d')`, returning the parsed triple or
`ValueError`. -/
def pyStrptime (s : String) : Except PyErr (ℕ × ℕ × ℕ) :=
  match parseDate s with
  | Option.some (y, m, d) =>
      if isRealDate y m d then .ok (y, m, d) else .error .valueError
  | Option.none => .error .valueError

/-- `MoodTracker.validate_date` on a string: `strptime` inside
`try/except ValueError`. -/
def validate_date (date_str : String) : Bool :=
  match pyStrptime date_str with
  | .ok _ => true
  | .error _ => false

/-- `MoodTracker.validate_date` on an arbitrary runtime value: `strptime`
raises an uncaught `TypeError` when its argument is not a string, and the
source catches only `ValueError`. -/
def validate_date_py : PyValue → Except PyErr Bool
  | .str s => .ok (validate_date s)
  | _ => .error .typeError

/-! ## Validator: moods (`MoodTracker.validate_mood`) -/

/-- The fixed mood enumeration of the source. -/
def valid_moods : List String :=
  ["happy", "sad", "angry", "anxious", "calm", "excited", "tired", "neutral"]

/-- `str.lower`, over the ASCII range. -/
def pyLower (s : String) : String := ⟨s.data.map Char.toLower⟩

/-- `MoodTracker.validate_mood` on a string: `mood.lower() in valid_moods`. -/
def validate_mood (mood : String) : Bool :=
  valid_moods.contains (pyLower mood)

/-- `MoodTracker.validate_mood` on an arbitrary runtime value:
`mood.lower()` raises an uncaught `AttributeError` when `mood` is not a
string (the source has no `try/except` at all here). -/
def validate_mood_py : PyValue → Except PyErr Bool
  | .str s => .ok (validate_mood s)
  | _ => .error .attributeError

/-! ## Validator: productivity (`MoodTracker.validate_productivity`) -/

/-- `MoodTracker.validate_productivity`: `int(productivity)` inside
`try/except ValueError`, then `1 <= score <= 10`.  Only `ValueError` is
caught, so `int(None)`'s `TypeError` propagates. -/
def validate_productivity (productivity : PyValue) : Except PyErr Bool :=
  match pyInt productivity with
  | .ok score => .ok (decide (1 ≤ score) && decide (score ≤ 10))
  | .error .valueError => .ok false
  | .error e => .error e

/-! ## The record store (`load_all_logs` / `save_log` / `save_all_logs`)

The store is a CSV text file.  Writes open the file with `newline=''`,
so the bytes produced by `csv.writer` (fields joined by `,`, rows
terminated by `\r\n`, a field quoted iff it contains a delimiter, a
quote, or a line-terminator character, with embedded quotes doubled)
reach the file unchanged.  The read in `load_all_logs` opens the file
WITHOUT `newline=''`, so universal-newline translation first rewrites
every `\r\n` and every lone `\r` to `\n`; `csv.DictReader` then parses
the translated text, using the first row as the key row.  File-system
errors (`FileNotFoundError` / `OSError`) are not modelled: the file
content is the model's state, and every failure that is modelled is one
the `except Exception` arm turns into `[]`. -/

/-- One journal entry as held in memory by the handlers (`row` dicts
with the `productivity` value converted to `int`). -/
structure LogEntry where
  date : String
  mood : String
  productivity : ℤ
  note : String
  deriving DecidableEq, Repr

/-- The fixed header row written by `initialize_file` and
`save_all_logs`. -/
def csvHeader : List String := ["date", "mood", "productivity", "note"]

/-- Decimal digit printer (fuel-structural so that it evaluates by
kernel reduction); `natToDigits n` is the standard decimal rendering of
`n`, most significant digit first. -/
def natToDigitsAux : ℕ → ℕ → List Char
  | 0, _ => []
  | fuel + 1, n =>
      if n < 10 then [Char.ofNat (48 + n)]
      else natToDigitsAux fuel (n / 10) ++ [Char.ofNat (48 + n % 10)]

/-- Decimal rendering of a natural number. -/
def natToDigits (n : ℕ) : List Char := natToDigitsAux (n + 1) n

/-- Python's `str` on an `int`: optional minus sign, then decimal
digits. -/
def pyStrOfInt (n : ℤ) : String :=
  if n < 0 then ⟨'-' :: natToDigits (-n).toNat⟩ else ⟨natToDigits n.toNat⟩

/-- Does `csv.writer` (QUOTE_MINIMAL) quote this field? -/
def needsQuote (cs : List Char) : Bool :=
  cs.any (fun c => c = ',' || c = '"' || c = '\r' || c = '\n')

/-- Double every quote character, as inside a quoted CSV field. -/
def escapeQuotes : List Char → List Char
  | [] => []
  | '"' :: cs => '"' :: '"' :: escapeQuotes cs
  | c :: cs => c :: escapeQuotes cs

/-- Serialize one CSV field with minimal quoting. -/
def encodeField (s : String) : List Char :=
  if needsQuote s.data then '"' :: (escapeQuotes s.data ++ ['"']) else s.data

/-- Serialize the fields of one row, joined by commas (no terminator). -/
def encodeFields : List String → List Char
  | [] => []
  | [f] => encodeField f
  | f :: fs => encodeField f ++ ',' :: encodeFields fs

/-- Serialize one row as `csv.writer.writerow` does: comma-joined
fields terminated by `\r\n`. -/
def encodeRow (fields : List String) : List Char :=
  encodeFields fields ++ ['\r', '\n']

/-- The CSV row written for one entry: `[date, mood, str(productivity),
note]`. -/
def rowOfEntry (e : LogEntry) : List String :=
  [e.date, e.mood, pyStrOfInt e.productivity, e.note]

/-- `MoodTracker.save_all_logs`: rewrite the whole store as the header
row followed by one row per entry.  (The source returns `False` instead
on an I/O exception; I/O failure is outside the model.) -/
def save_all_logs (logs : List LogEntry) : String :=
  ⟨encodeRow csvHeader ++ (logs.map fun e => encodeRow (rowOfEntry e)).flatten⟩

/-- `MoodTracker.save_log`: append one row to the existing file. -/
def save_log (file : String) (e : LogEntry) : String :=
  ⟨file.data ++ encodeRow (rowOfEntry e)⟩

/-- Universal-newline translation performed by `open(DATA_FILE, 'r')`
(no `newline=''`): every `\r\n` pair and every lone `\r` becomes `\n`. -/
def univNewlines : List Char → List Char
  | [] => []
  | '\r' :: '\n' :: cs => '\n' :: univNewlines cs
  | '\r' :: cs => '\n' :: univNewlines cs
  | c :: cs => c :: univNewlines cs

/-- States of the CSV reader automaton: at the start of a row, at the
start of a later field (just after a comma), inside an unquoted field,
inside a quoted field, or just after the closing quote of a quoted
field. -/
inductive CsvMode where
  | startRow
  | startField
  | bare
  | quoted
  | afterQuote
  deriving DecidableEq, Repr

/-- The `csv.reader` automaton over already-translated text (`\n` row
ends).  `f` is the reversed current field, `r` the reversed current row,
`rs` the reversed list of finished rows.  Blank lines yield empty rows,
which `DictReader` skips, so they are skipped here.  `Option.none`
models a malformed stream (`csv.Error`, e.g. an unterminated quoted
field) — unreachable on writer output. -/
def csvRun : List Char → CsvMode → List Char → List String → List (List String) →
    Option (List (List String))
  | [], .startRow, _, _, rs => Option.some rs.reverse
  | [], .startField, f, r, rs => Option.some (((⟨f.reverse⟩ :: r).reverse) :: rs).reverse
  | [], .bare, f, r, rs => Option.some (((⟨f.reverse⟩ :: r).reverse) :: rs).reverse
  | [], .afterQuote, f, r, rs => Option.some (((⟨f.reverse⟩ :: r).reverse) :: rs).reverse
  | [], .quoted, _, _, _ => Option.none
  | c :: cs, .startRow, _, r, rs =>
      if c = '\n' then csvRun cs .startRow [] [] rs
      else if c = '"' then csvRun cs .quoted [] r rs
      else if c = ',' then csvRun cs .startField [] ("" :: r) rs
      else csvRun cs .bare [c] r rs
  | c :: cs, .startField, _, r, rs =>
      if c = '\n' then csvRun cs .startRow [] [] ((("" :: r).reverse) :: rs)
      else if c = '"' then csvRun cs .quoted [] r rs
      else if c = ',' then csvRun cs .startField [] ("" :: r) rs
      else csvRun cs .bare [c] r rs
  | c :: cs, .bare, f, r, rs =>
      if c = '\n' then csvRun cs .startRow [] [] (((⟨f.reverse⟩ :: r).reverse) :: rs)
      else if c = ',' then csvRun cs .startField [] (⟨f.reverse⟩ :: r) rs
      else csvRun cs .bare (c :: f) r rs
  | c :: cs, .quoted, f, r, rs =>
      if c = '"' then csvRun cs .afterQuote f r rs
      else csvRun cs .quoted (c :: f) r rs
  | c :: cs, .afterQuote, f, r, rs =>
      if c = '"' then csvRun cs .quoted ('"' :: f) r rs
      else if c = ',' then csvRun cs .startField [] (⟨f.reverse⟩ :: r) rs
      else if c = '\n' then csvRun cs .startRow [] [] (((⟨f.reverse⟩ :: r).reverse) :: rs)
      else Option.none

/-- Rows of the translated file content, in order. -/
def loadRows (content : String) : Option (List (List String)) :=
  csvRun (univNewlines content.data) .startRow [] [] []

/-- Value of column `key` for a data row, through the `DictReader`
dict: `Option.none` is the `restval` `None` used when the row is
shorter than the key row; a key absent from the key row raises
`KeyError`. -/
def rowVal (hdr row : List String) (key : String) : Except PyErr (Option String) :=
  match hdr.findIdx? (· == key) with
  | Option.some i => .ok row[i]?
  | Option.none => .error .keyError

/-- Convert one `DictReader` row into a `LogEntry`:
`int(row['productivity'])` raises `ValueError` on a non-integer string
and `TypeError` on `None`.  (Python would defer missing `date` / `mood`
/ `note` values to their later use sites rather than failing at load;
the app's writer always emits all four columns, so the difference is
unreachable for app-written stores and both models agree there.) -/
def entryOfRow (hdr row : List String) : Except PyErr LogEntry := do
  let d ← rowVal hdr row "date"
  let m ← rowVal hdr row "mood"
  let p ← rowVal hdr row "productivity"
  let n ← rowVal hdr row "note"
  match p with
  | Option.none => .error .typeError
  | Option.some ps =>
    match parseIntPy ps with
    | Option.none => .error .valueError
    | Option.some k =>
      match d, m, n with
      | Option.some ds, Option.some ms, Option.some ns => .ok ⟨ds, ms, k, ns⟩
      | _, _, _ => .error .typeError

/-- The reading loop of `load_all_logs`: convert the rows in order,
aborting at the first failing row (the raised exception leaves the
`for` loop). -/
def mapEntries (hdr : List String) : List (List String) → Except PyErr (List LogEntry)
  | [] => .ok []
  | r :: rest => do
      let e ← entryOfRow hdr r
      let es ← mapEntries hdr rest
      pure (e :: es)

/-- The fallible part of `load_all_logs`: parse the translated file,
take the first row as the key row, convert every later row.  An empty
file yields no rows at all (`DictReader` without a key row is empty). -/
def loadLogsE (content : String) : Except PyErr (List LogEntry) :=
  match loadRows content with
  | Option.none => .error .valueError
  | Option.some [] => .ok []
  | Option.some (hdr :: rows) => mapEntries hdr rows

/-- `MoodTracker.load_all_logs`: any exception is swallowed
(`except Exception: ... return []`) and the whole collection reads as
empty. -/
def load_all_logs (content : String) : List LogEntry :=
  match loadLogsE content with
  | .ok logs => logs
  | .error _ => []

/-! ## Aggregator: `get_summary`

`get_summary` / `get_insights` in the source read the store themselves;
here they take the loaded collection (and, for insights, the formatted
cutoff date) as arguments, and the route handlers compose them with
`load_all_logs`. -/

/-- Increment the count of `m` in an insertion-ordered association
list, appending a new key at the end — exactly the key order a Python
dict built by `mood_count[mood] = mood_count.get(mood, 0) + 1`
maintains. -/
def incrCount (l : List (String × ℕ)) (m : String) : List (String × ℕ) :=
  match l with
  | [] => [(m, 1)]
  | (k, v) :: rest => if k = m then (k, v + 1) :: rest else (k, v) :: incrCount rest m

/-- The `mood_count` dict of `get_summary` (also its
`mood_distribution`, which copies it verbatim). -/
def buildCounts (ms : List String) : List (String × ℕ) := ms.foldl incrCount []

/-- Dict lookup with default 0 on an association list. -/
def lookupCount : List (String × ℕ) → String → ℕ
  | [], _ => 0
  | (k, v) :: rest, m => if k = m then v else lookupCount rest m

/-- First-occurrence deduplication of a list. -/
def dedupFirst (l : List String) : List String := go [] l
where
  go (seen : List String) : List String → List String
    | [] => []
    | x :: xs => if seen.contains x then go seen xs else x :: go (x :: seen) xs

/-- `max(set(moods), key=moods.count)`.  Python iterates a hash set in
an unspecified order; this model iterates first occurrences in list
order, keeping the earlier candidate on ties (as Python's `max` keeps
the first maximal element of its iteration).  When one mood's count
strictly dominates, every iteration order selects it, so the theorems
below do not depend on this choice. -/
def maxByCount (moods : List String) : String :=
  match dedupFirst moods with
  | [] => ""
  | c :: cs => go c cs
where
  go (best : String) : List String → String
    | [] => best
    | x :: xs => if moods.count best < moods.count x then go x xs else go best xs

/-- Sakamoto's day-of-week algorithm, `0 = Sunday`. -/
def dayOfWeekNum (y m d : ℕ) : ℕ :=
  let t := [0, 3, 2, 5, 0, 3, 5, 1, 4, 6, 2, 4]
  let y' := if m < 3 then y - 1 else y
  (y' + y' / 4 - y' / 100 + y' / 400 + t.getD (m - 1) 0 + d) % 7

/-- `date_obj.strftime('%A')`: the English weekday name. -/
def dayName (y m d : ℕ) : String :=
  ["Sunday", "Monday", "Tuesday", "Wednesday", "Thursday", "Friday",
   "Saturday"].getD (dayOfWeekNum y m d) "Sunday"

/-- Append a score to a day's group in the insertion-ordered
`day_productivity` dict. -/
def addScore (l : List (String × List ℤ)) (day : String) (score : ℤ) :
    List (String × List ℤ) :=
  match l with
  | [] => [(day, [score])]
  | (k, v) :: rest =>
      if k = day then (k, v ++ [score]) :: rest else (k, v) :: addScore rest day score

/-- The `day_productivity` grouping loop of `get_summary`;
`datetime.strptime` on a stored date raises (uncaught) if the date text
is not a valid date. -/
def buildDayProd (logs : List LogEntry) : Except PyErr (List (String × List ℤ)) :=
  logs.foldlM
    (fun acc log => do
      let (y, m, d) ← pyStrptime log.date
      pure (addScore acc (dayName y m d) log.productivity))
    []

/-- First pair with maximal second component (`max(items, key=x: x[1])`
over an insertion-ordered dict, which IS deterministic in Python);
`("No data", 0)` on the empty dict. -/
def maxBySnd (l : List (String × ℚ)) : String × ℚ :=
  match l with
  | [] => ("No data", 0)
  | p :: rest => go p rest
where
  go (best : String × ℚ) : List (String × ℚ) → String × ℚ
    | [] => best
    | x :: xs => if best.2 < x.2 then go x xs else go best xs

/-- The summary payload.  `average_productivity` and
`most_productive_day_score` are kept as exact rationals; the source
additionally rounds them to 2 decimals for display. -/
structure Summary where
  total_entries : ℕ
  average_productivity : ℚ
  most_common_mood : String
  mood_distribution : List (String × ℕ)
  most_productive_day : String
  most_productive_day_score : ℚ
  deriving DecidableEq, Repr

/-- Result shape of `get_summary`: the no-data `{error: ...}` body or a
summary. -/
inductive SummaryOut where
  | err (msg : String)
  | ok (s : Summary)
  deriving DecidableEq, Repr

/-- `MoodTracker.get_summary` on the loaded collection. -/
def get_summary (logs : List LogEntry) : Except PyErr SummaryOut :=
  if logs.isEmpty then .ok (.err "No data available")
  else do
    let productivity_scores := logs.map (·.productivity)
    let moods := logs.map (·.mood)
    let avg_productivity := Rat.divInt productivity_scores.sum productivity_scores.length
    let most_common_mood := maxByCount moods
    let mood_count := buildCounts moods
    let day_productivity ← buildDayProd logs
    let avg_by_day := day_productivity.map fun p => (p.1, Rat.divInt p.2.sum p.2.length)
    let most_productive_day := maxBySnd avg_by_day
    pure (.ok ⟨logs.length, avg_productivity, most_common_mood, mood_count,
               most_productive_day.1, most_productive_day.2⟩)

/-! ## Aggregator: `get_insights` -/

/-- Result shape of `get_insights`: an `{error: ...}` body, or the
average (exact rational; the source also rounds it for display) with the
suggestion list. -/
inductive InsightsOut where
  | err (msg : String)
  | ok (avg : ℚ) (suggestions : List String)
  deriving DecidableEq, Repr

/-- Suggestion for mean recent productivity `>= 8`. -/
def sugExcellent : String :=
  "ðŸŽ‰ Excellent! You're doing great! Keep up the fantastic work!"

/-- Suggestion for mean recent productivity in `[6, 8)`. -/
def sugGood : String :=
  "ðŸ‘ Good job! You're maintaining solid productivity."

/-- Suggestion for mean recent productivity in `[4, 6)`. -/
def sugNotBad : String :=
  "ðŸ’¡ Not bad! Try breaking tasks into smaller chunks to improve focus."

/-- Four-line block for mean recent productivity below 4. -/
def sugImproveBlock : List String :=
  ["ðŸ” Let's improve! Consider these tips:",
   "Start with the most important task first",
   "Take regular breaks using Pomodoro technique",
   "Minimize distractions during work hours"]

/-- Four-line self-care block appended when negative moods dominate. -/
def sugToughBlock : List String :=
  ["ðŸ˜” You've had some tough days. Remember to:",
   "Take time for self-care activities",
   "Talk to friends or family",
   "Practice mindfulness or meditation"]

/-- The negative-mood subset of the source. -/
def negative_moods : List String := ["sad", "angry", "anxious", "tired"]

/-- Python's `<=` on strings: lexicographic comparison of the unicode
scalar sequences (a strict prefix is smaller). -/
def charListLe : List Char → List Char → Bool
  | [], _ => true
  | _ :: _, [] => false
  | a :: as, b :: bs =>
      if a.toNat < b.toNat then true
      else if b.toNat < a.toNat then false
      else charListLe as bs

/-- Python's `s <= t` on strings. -/
def pyStrLe (s t : String) : Bool := charListLe s.data t.data

/-- The 7-day window filter of `get_insights`:
`[log for log in logs if log['date'] >= recent_date]`, with Python's
lexicographic string comparison. -/
def recentLogs (logs : List LogEntry) (recent_date : String) : List LogEntry :=
  logs.filter fun log => pyStrLe recent_date log.date

/-- `MoodTracker.get_insights` on the loaded collection.
`recent_date` stands for `(datetime.now() - timedelta(days=7))
.strftime('%Y-%m-%d')`, the only wall-clock input.
`negative_count > len(recent_moods) * 0.5` compares the integer count
to the exact float `len/2`, i.e. `len/2 < count` over ℚ. -/
def get_insights (logs : List LogEntry) (recent_date : String) : InsightsOut :=
  if logs.isEmpty then .err "No data available"
  else
    let recent_logs := recentLogs logs recent_date
    if recent_logs.isEmpty then .err "No recent data available"
    else
      let recent_productivity := recent_logs.map (·.productivity)
      let recent_moods := recent_logs.map (·.mood)
      let avg := Rat.divInt recent_productivity.sum recent_productivity.length
      let suggestions :=
        if (8 : ℚ) ≤ avg then [sugExcellent]
        else if (6 : ℚ) ≤ avg then [sugGood]
        else if (4 : ℚ) ≤ avg then [sugNotBad]
        else sugImproveBlock
      let negative_count := recent_moods.countP fun m => negative_moods.contains m
      let suggestions :=
        if Rat.divInt (recent_moods.length : ℤ) 2 < (negative_count : ℚ) then
          suggestions ++ sugToughBlock
        else suggestions
      .ok avg suggestions

/-! ## Request handlers

Modelled as functions from the current file content (and request data)
to the new file content and the HTTP response; raising `PyErr` models an
uncaught Python exception (Flask's generic 500).  Storage-write
failures (the 500 "Failed to save" paths) are I/O conditions outside
the model: writes here always succeed. -/

/-- The JSON request body: each field may be absent. -/
structure ReqData where
  date : Option PyValue
  mood : Option PyValue
  productivity : Option PyValue
  note : Option PyValue
  deriving DecidableEq, Repr

/-- `data.get(key, default)`. -/
def pyGet (v : Option PyValue) (default : PyValue) : PyValue := v.getD default

/-- `str(x)` as `csv.writer` renders a cell (`None` becomes the empty
string).  The shortest-round-trip `repr` of floats is not modelled; no
theorem below builds an entry from a float field. -/
def csvCellStr : PyValue → String
  | .str s => s
  | .none => ""
  | .bool b => cond b "True" "False"
  | .int n => pyStrOfInt n
  | .float _ => "<float>"

/-- An HTTP response: status code plus the `error` / `message` body
fields. -/
structure HttpResponse where
  status : ℕ
  body_error : Option String
  body_message : Option String
  deriving DecidableEq, Repr

/-- `jsonify({"error": msg}), code`. -/
def jsonError (code : ℕ) (msg : String) : HttpResponse :=
  ⟨code, Option.some msg, Option.none⟩

/-- `jsonify({"message": msg})` (status 200). -/
def jsonMessage (msg : String) : HttpResponse :=
  ⟨200, Option.none, Option.some msg⟩

/-- `GET /api/logs`. -/
def get_logs (file : String) : List LogEntry := load_all_logs file

/-- `POST /api/logs` (`add_log`): validate the three fields in order,
then append one row.  After a validation passes, the corresponding
`data[...]` access cannot fail (an absent key would have defaulted to
`""` and failed validation), so `data['date']` is modelled by the same
`get` with default. -/
def add_log (file : String) (data : ReqData) : Except PyErr (String × HttpResponse) := do
  let vd ← validate_date_py (pyGet data.date (.str ""))
  if !vd then return (file, jsonError 400 "Invalid date format. Use YYYY-MM-DD")
  let vm ← validate_mood_py (pyGet data.mood (.str ""))
  if !vm then return (file, jsonError 400 "Invalid mood")
  let vp ← validate_productivity (pyGet data.productivity (.str ""))
  if !vp then return (file, jsonError 400 "Invalid productivity score. Must be 1-10")
  let n ← pyInt (pyGet data.productivity (.str ""))
  let entry : LogEntry :=
    ⟨csvCellStr (pyGet data.date (.str "")), csvCellStr (pyGet data.mood (.str "")),
     n, csvCellStr (pyGet data.note (.str ""))⟩
  return (save_log file entry, jsonMessage "Log added successfully")

/-- `PUT /api/logs/<int:log_index>` (`edit_log`): bounds-check the
index against the loaded collection, validate, replace in place,
rewrite the whole store. -/
def edit_log (file : String) (log_index : ℤ) (data : ReqData) :
    Except PyErr (String × HttpResponse) := do
  let logs := load_all_logs file
  if log_index < 0 ∨ (logs.length : ℤ) ≤ log_index then
    return (file, jsonError 400 "Invalid log index")
  let vd ← validate_date_py (pyGet data.date (.str ""))
  if !vd then return (file, jsonError 400 "Invalid date format. Use YYYY-MM-DD")
  let vm ← validate_mood_py (pyGet data.mood (.str ""))
  if !vm then return (file, jsonError 400 "Invalid mood")
  let vp ← validate_productivity (pyGet data.productivity (.str ""))
  if !vp then return (file, jsonError 400 "Invalid productivity score. Must be 1-10")
  let n ← pyInt (pyGet data.productivity (.str ""))
  let entry : LogEntry :=
    ⟨csvCellStr (pyGet data.date (.str "")), csvCellStr (pyGet data.mood (.str "")),
     n, csvCellStr (pyGet data.note (.str ""))⟩
  return (save_all_logs (logs.set log_index.toNat entry),
          jsonMessage "Log updated successfully")

/-- `DELETE /api/logs/<int:log_index>` (`delete_log`): bounds-check,
`logs.pop(index)`, rewrite the whole store; the success message carries
the deleted entry's date.  (`getD` never sees its fallback: the index
was just bounds-checked.) -/
def delete_log (file : String) (log_index : ℤ) : Except PyErr (String × HttpResponse) :=
  let logs := load_all_logs file
  if log_index < 0 ∨ (logs.length : ℤ) ≤ log_index then
    .ok (file, jsonError 400 "Invalid log index")
  else
    let deleted := logs.getD log_index.toNat ⟨"", "", 0, ""⟩
    .ok (save_all_logs (logs.eraseIdx log_index.toNat),
         jsonMessage ("Log for " ++ deleted.date ++ " deleted successfully"))

section SanityChecks

example : validate_date "2024-01-15" = true := by decide
example : validate_date "2024-13-01" = false := by decide
example : validate_date "2023-02-29" = false := by decide
example : validate_date "2024-02-29" = true := by decide
example : validate_date "not-a-date" = false := by decide
example : validate_date "2024-1-5" = true := by decide
example : validate_date "0000-01-01" = false := by decide
example : validate_date "24-01-01" = false := by decide
example : validate_mood "HaPpY" = true := by decide
example : validate_mood "meh" = false := by decide
example : validate_productivity (.str "7") = .ok true := by decide
example : validate_productivity (.str "11") = .ok false := by decide
example : validate_productivity (.str "7.5") = .ok false := by decide
example : validate_productivity (.float (Rat.divInt 15 2)) = .ok true := by decide
example : validate_productivity .none = .error .typeError := by decide
example : parseIntPy "  +1_0 " = Option.some 10 := by decide

example : pyStrOfInt (-123) = "-123" := by decide
example : save_all_logs [⟨"2024-01-01", "happy", 5, "fine"⟩] =
    "date,mood,productivity,note\r\n2024-01-01,happy,5,fine\r\n" := by decide
example : load_all_logs "date,mood,productivity,note\r\n2024-01-01,happy,5,fine\r\n" =
    [⟨"2024-01-01", "happy", 5, "fine"⟩] := by decide
example : load_all_logs (save_all_logs [⟨"2024-01-01", "happy", 5, "a,b\"c\nd"⟩]) =
    [⟨"2024-01-01", "happy", 5, "a,b\"c\nd"⟩] := by decide
example : load_all_logs (save_all_logs [⟨"2024-01-01", "happy", 5, "a\rb"⟩]) =
    [⟨"2024-01-01", "happy", 5, "a\nb"⟩] := by decide
example : load_all_logs "date,mood,productivity,note\r\n2024-01-01,happy,oops,x\r\n2024-01-02,sad,5,y\r\n" = [] := by decide

example : dayName 2024 1 1 = "Monday" := by decide
example : dayName 2026 10 12 = "Monday" := by decide
example : dayName 2000 2 29 = "Tuesday" := by decide

example : get_summary [⟨"2024-01-01", "happy", 5, ""⟩, ⟨"2024-01-02", "sad", 9, ""⟩] =
    .ok (.ok ⟨2, 7, "happy", [("happy", 1), ("sad", 1)], "Tuesday", 9⟩) := by decide

example : get_summary [] = .ok (.err "No data available") := by decide

example : get_insights [⟨"2024-01-01", "happy", 5, ""⟩] "2024-02-01" =
    .err "No recent data available" := by decide

example : get_insights [⟨"2024-02-03", "happy", 9, ""⟩, ⟨"2024-01-01", "calm", 1, ""⟩]
    "2024-02-01" = .ok 9 [sugExcellent] := by decide

example : get_insights [⟨"2024-02-03", "sad", 2, ""⟩, ⟨"2024-02-04", "happy", 3, ""⟩,
    ⟨"2024-02-05", "tired", 4, ""⟩] "2024-02-01" =
    .ok 3 (sugImproveBlock ++ sugToughBlock) := by decide

example : add_log "date,mood,productivity,note\r\n" ⟨Option.some (.str "2024-13-40"),
    Option.some (.str "happy"), Option.some (.str "5"), Option.none⟩ =
    .ok ("date,mood,productivity,note\r\n",
         jsonError 400 "Invalid date format. Use YYYY-MM-DD") := by decide

example : add_log "date,mood,productivity,note\r\n" ⟨Option.some (.str "2024-01-02"),
    Option.some (.str "Happy"), Option.some (.str "5"), Option.some (.str "ok")⟩ =
    .ok ("date,mood,productivity,note\r\n2024-01-02,Happy,5,ok\r\n",
         jsonMessage "Log added successfully") := by decide

example : edit_log "date,mood,productivity,note\r\n2024-01-02,Happy,5,ok\r\n" 1
    ⟨Option.some (.str "2024-01-03"), Option.some (.str "sad"), Option.some (.str "4"),
     Option.none⟩ =
    .ok ("date,mood,productivity,note\r\n2024-01-02,Happy,5,ok\r\n",
         jsonError 400 "Invalid log index") := by decide

example : delete_log "date,mood,productivity,note\r\n2024-01-02,Happy,5,ok\r\n" 0 =
    .ok ("date,mood,productivity,note\r\n",
         jsonMessage "Log for 2024-01-02 deleted successfully") := by decide

end SanityChecks

/-! ## Claim C1 — totality of the validators -/

/-- C1, counterexample: the validators are NOT total on every input
value.  `validate_mood(None)` hits `None.lower()` and raises an
uncaught `AttributeError`; `validate_date(5)` makes `strptime` raise
`TypeError`; `validate_productivity(None)` makes `int(None)` raise
`TypeError`, and only `ValueError` is caught. -/
theorem validators_not_total_counterexample :
    validate_mood_py PyValue.none = .error .attributeError ∧
    validate_date_py (PyValue.int 5) = .error .typeError ∧
    validate_productivity PyValue.none = .error .typeError := by
  refine ⟨rfl, rfl, rfl⟩

/-- C1, amended: each validator is total (returns a boolean, never
raises) on every STRING input, and `validate_productivity` is also
total on every numeric or boolean input; on other runtime values
(`None`, numbers passed to the date/mood validators) the code raises an
uncaught `TypeError`/`AttributeError`. -/
theorem validators_total_on_strings (s : String) (n : ℤ) (q : ℚ) (b : Bool) :
    (validate_date_py (.str s)).isOk = true ∧
    (validate_mood_py (.str s)).isOk = true ∧
    (validate_productivity (.str s)).isOk = true ∧
    (validate_productivity (.int n)).isOk = true ∧
    (validate_productivity (.float q)).isOk = true ∧
    (validate_productivity (.bool b)).isOk = true := by
  refine ⟨rfl, rfl, ?_, rfl, rfl, ?_⟩
  · simp only [validate_productivity, pyInt]
    cases parseIntPy s <;> rfl
  · cases b <;> rfl

/-! ## Claim C2 — the productivity predicate -/

/-- C2, counterexample: a fractional float IS accepted.
`int(7.5)` truncates to `7`, so `validate_productivity(7.5)` returns
`True`, although `7.5` is not an integer. -/
theorem validate_productivity_fractional_accepted :
    validate_productivity (.float (Rat.divInt 15 2)) = .ok true ∧
    ¬ ∃ n : ℤ, (n : ℚ) = Rat.divInt 15 2 := by
  constructor
  · decide
  · rintro ⟨n, h⟩
    have hd : ((n : ℚ)).den = 1 := Rat.den_intCast n
    rw [h] at hd
    have : (Rat.divInt 15 2).den = 2 := by decide
    omega

/-- C2, amended: `validate_productivity(v)` returns true iff Python's
`int(v)` conversion succeeds with a result in `[1, 10]`: a string must
parse as an integer literal (fractional strings such as `"7.5"` are
rejected), while a float is truncated toward zero and accepted whenever
the truncation lands in range. -/
theorem validate_productivity_amended (s : String) (q : ℚ) (n : ℤ) :
    (validate_productivity (.str s) = .ok true ↔
      ∃ k : ℤ, parseIntPy s = Option.some k ∧ 1 ≤ k ∧ k ≤ 10) ∧
    validate_productivity (.float q) =
      .ok (decide (1 ≤ ratTrunc q) && decide (ratTrunc q ≤ 10)) ∧
    validate_productivity (.int n) = .ok (decide (1 ≤ n) && decide (n ≤ 10)) := by
  refine ⟨?_, rfl, rfl⟩
  simp only [validate_productivity, pyInt]
  cases h : parseIntPy s with
  | none => simp
  | some k =>
      constructor
      · intro hk
        refine ⟨k, rfl, ?_⟩
        have := Except.ok.inj hk
        simpa using this
      · rintro ⟨k', hk', h1, h10⟩
        obtain rfl : k = k' := Option.some.inj hk'
        simp [h1, h10]

/-! ## Claim C3 — the date predicate -/

/-- C3, counterexample: zero padding is NOT required.  `strptime`'s
`%m`/`%d` directives match one- or two-digit fields, so the non-padded
string `"2024-1-5"` is accepted by `validate_date`. -/
theorem validate_date_unpadded_accepted : validate_date "2024-1-5" = true := by decide

/-- C3, amended: `validate_date(s)` is true iff `s` consists of an
exactly-four-digit year, a one-or-two-digit month and a one-or-two-digit
day separated by dashes (zero padding of month and day is NOT
required), denoting an existing calendar date with year ≥ 1; malformed
strings and impossible dates (month 13, Feb 29 of a non-leap year) are
rejected. -/
theorem validate_date_amended (s : String) :
    validate_date s = true ↔
      ∃ y m d, parseDate s = Option.some (y, m, d) ∧
        1 ≤ y ∧ 1 ≤ m ∧ m ≤ 12 ∧ 1 ≤ d ∧ d ≤ daysInMonth y m := by
  simp only [validate_date, pyStrptime]
  cases h : parseDate s with
  | none => simp
  | some t =>
      obtain ⟨y, m, d⟩ := t
      constructor
      · intro hv
        refine ⟨y, m, d, rfl, ?_⟩
        by_cases hr : isRealDate y m d = true
        · have := hr
          simp only [isRealDate, Bool.and_eq_true, decide_eq_true_eq] at this
          tauto
        · simp [hr] at hv
      · rintro ⟨y', m', d', heq, h1, h2, h3, h4, h5⟩
        obtain ⟨rfl, rfl, rfl⟩ : y = y' ∧ m = m' ∧ d = d' := by
          have := Option.some.inj heq
          simp_all
        have hr : isRealDate y m d = true := by simp [isRealDate, h1, h2, h3, h4, h5]
        simp [hr]

/-! ## Claim C6 — invalid dates never write -/

/-- C6: a create or update request whose date field is an invalid date
string gets a 400 response and leaves the stored file exactly as it
was.  For the update, the bounds check may answer first, but the
response is 400 and the store untouched either way. -/
theorem invalid_date_no_write (file : String) (data : ReqData) (s : String) (idx : ℤ)
    (hdate : pyGet data.date (.str "") = .str s) (hbad : validate_date s = false) :
    add_log file data = .ok (file, jsonError 400 "Invalid date format. Use YYYY-MM-DD") ∧
    (edit_log file idx data = .ok (file, jsonError 400 "Invalid log index") ∨
     edit_log file idx data =
       .ok (file, jsonError 400 "Invalid date format. Use YYYY-MM-DD")) := by
  constructor
  · simp [add_log, hdate, validate_date_py, hbad, Bind.bind, Except.bind, Pure.pure,
      Except.pure]
  · by_cases hb : idx < 0 ∨ ((load_all_logs file).length : ℤ) ≤ idx
    · left
      simp [edit_log, hb, Pure.pure, Except.pure]
    · right
      simp [edit_log, hb, hdate, validate_date_py, hbad, Bind.bind, Except.bind,
        Pure.pure, Except.pure]

/-- C6 witness: the concrete invalid dates of the spec at a concrete
store. -/
theorem invalid_date_no_write_witness :
    (add_log "date,mood,productivity,note\r\n2024-01-02,happy,5,ok\r\n"
        ⟨Option.some (.str "2024-13-40"), Option.some (.str "happy"),
         Option.some (.str "5"), Option.none⟩ =
      .ok ("date,mood,productivity,note\r\n2024-01-02,happy,5,ok\r\n",
           jsonError 400 "Invalid date format. Use YYYY-MM-DD") ∧
     (edit_log "date,mood,productivity,note\r\n2024-01-02,happy,5,ok\r\n" 0
        ⟨Option.some (.str "2024-13-40"), Option.some (.str "happy"),
         Option.some (.str "5"), Option.none⟩ =
        .ok ("date,mood,productivity,note\r\n2024-01-02,happy,5,ok\r\n",
             jsonError 400 "Invalid log index") ∨
      edit_log "date,mood,productivity,note\r\n2024-01-02,happy,5,ok\r\n" 0
        ⟨Option.some (.str "2024-13-40"), Option.some (.str "happy"),
         Option.some (.str "5"), Option.none⟩ =
        .ok ("date,mood,productivity,note\r\n2024-01-02,happy,5,ok\r\n",
             jsonError 400 "Invalid date format. Use YYYY-MM-DD"))) ∧
    (add_log "date,mood,productivity,note\r\n"
        ⟨Option.some (.str "not-a-date"), Option.none, Option.none, Option.none⟩ =
      .ok ("date,mood,productivity,note\r\n",
           jsonError 400 "Invalid date format. Use YYYY-MM-DD") ∧
     (edit_log "date,mood,productivity,note\r\n" 2
        ⟨Option.some (.str "not-a-date"), Option.none, Option.none, Option.none⟩ =
        .ok ("date,mood,productivity,note\r\n", jsonError 400 "Invalid log index") ∨
      edit_log "date,mood,productivity,note\r\n" 2
        ⟨Option.some (.str "not-a-date"), Option.none, Option.none, Option.none⟩ =
        .ok ("date,mood,productivity,note\r\n",
             jsonError 400 "Invalid date format. Use YYYY-MM-DD"))) := by
  constructor
  · exact invalid_date_no_write _ _ "2024-13-40" 0 rfl (by decide)
  · exact invalid_date_no_write _ _ "not-a-date" 2 rfl (by decide)

/-! ## Claim C7 — boundary indices -/

/-- C7: for a stored collection of length `n`, an update or delete at
index `-1` or at index `n` answers 400 ("Invalid log index") and leaves
the stored file unchanged. -/
theorem edit_delete_boundary_indices (file : String) (data : ReqData) :
    edit_log file (-1) data = .ok (file, jsonError 400 "Invalid log index") ∧
    edit_log file ((load_all_logs file).length : ℤ) data =
      .ok (file, jsonError 400 "Invalid log index") ∧
    delete_log file (-1) = .ok (file, jsonError 400 "Invalid log index") ∧
    delete_log file ((load_all_logs file).length : ℤ) =
      .ok (file, jsonError 400 "Invalid log index") := by
  refine ⟨?_, ?_, ?_, ?_⟩
  · simp [edit_log, Pure.pure, Except.pure]
  · simp [edit_log, Pure.pure, Except.pure]
  · simp [delete_log]
  · simp [delete_log]

/-! ## Claim C4 — the 7-day window of `get_insights` -/

/-- C4: on a non-empty collection, `get_insights` keeps exactly the
entries whose date compares `>=` (lexicographically, as strings) with
the `today - 7 days` cutoff — an inclusive lower bound and no upper
bound — and answers `{error: "No recent data available"}` precisely
when that filtered set is empty. -/
theorem insights_window_filter (logs : List LogEntry) (cutoff : String) (l : LogEntry)
    (hne : logs ≠ []) :
    (l ∈ recentLogs logs cutoff ↔ l ∈ logs ∧ pyStrLe cutoff l.date = true) ∧
    (get_insights logs cutoff = .err "No recent data available" ↔
      recentLogs logs cutoff = []) := by
  constructor
  · simp [recentLogs, List.mem_filter]
  · simp only [get_insights, List.isEmpty_iff]
    rw [if_neg hne]
    by_cases hrec : recentLogs logs cutoff = []
    · simp [hrec]
    · simp [hrec]

/-- C4 witness: a two-entry collection with one recent and one stale
date, and a collection with only stale dates. -/
theorem insights_window_filter_witness :
    ((⟨"2024-02-03", "happy", 9, ""⟩ : LogEntry) ∈
        recentLogs [⟨"2024-02-03", "happy", 9, ""⟩, ⟨"2024-01-01", "calm", 1, ""⟩]
          "2024-02-01" ↔
      (⟨"2024-02-03", "happy", 9, ""⟩ : LogEntry) ∈
          ([⟨"2024-02-03", "happy", 9, ""⟩, ⟨"2024-01-01", "calm", 1, ""⟩] :
            List LogEntry) ∧
        pyStrLe "2024-02-01" "2024-02-03" = true) ∧
    (get_insights [⟨"2024-02-03", "happy", 9, ""⟩, ⟨"2024-01-01", "calm", 1, ""⟩]
        "2024-02-01" = .err "No recent data available" ↔
      recentLogs [⟨"2024-02-03", "happy", 9, ""⟩, ⟨"2024-01-01", "calm", 1, ""⟩]
        "2024-02-01" = []) := by
  exact insights_window_filter _ _ _ (by decide)

/-! ## Claim C5 — the suggestion list -/

/-- C5: on a non-empty filtered window, the suggestion list is the
threshold-selected base (one line for mean ≥ 8, one for ≥ 6, one for
≥ 4, else the fixed 4-line block), followed by the fixed 4-line
self-care block exactly when the strictly-negative-mood count exceeds
half the filtered entries; its length is therefore 1, 4, 5 or 8 —
always between 1 and 8. -/
theorem insights_suggestions (logs : List LogEntry) (cutoff : String)
    (hne : logs ≠ []) (hrec : recentLogs logs cutoff ≠ []) :
    let recent := recentLogs logs cutoff
    let avg : ℚ :=
      Rat.divInt (recent.map (·.productivity)).sum (recent.map (·.productivity)).length
    let negative_count := (recent.map (·.mood)).countP fun m => negative_moods.contains m
    let base :=
      if (8 : ℚ) ≤ avg then [sugExcellent]
      else if (6 : ℚ) ≤ avg then [sugGood]
      else if (4 : ℚ) ≤ avg then [sugNotBad]
      else sugImproveBlock
    let sugg := base ++
      (if Rat.divInt ((recent.map (·.mood)).length : ℤ) 2 < (negative_count : ℚ) then
        sugToughBlock
      else [])
    get_insights logs cutoff = .ok avg sugg ∧
    (sugg.length = 1 ∨ sugg.length = 4 ∨ sugg.length = 5 ∨ sugg.length = 8) ∧
    1 ≤ sugg.length ∧ sugg.length ≤ 8 := by
  intro recent avg negative_count base sugg
  have hbase : base.length = 1 ∨ base.length = 4 := by
    simp only [base]
    split_ifs <;> simp [sugImproveBlock]
  constructor
  · simp only [get_insights, List.isEmpty_iff]
    rw [if_neg hne, if_neg hrec]
    simp only [sugg, base, recent, avg, negative_count]
    split_ifs <;> simp
  · have htough : sugToughBlock.length = 4 := by decide
    simp only [sugg]
    rcases hbase with h | h <;> split_ifs <;>
      simp [List.length_append, h, htough]

/-- C5 witness: three recent low-productivity entries, two of them with
negative moods, produce the 4-line base block plus the 4-line self-care
block. -/
theorem insights_suggestions_witness :
    let logs : List LogEntry := [⟨"2024-02-03", "sad", 2, ""⟩,
      ⟨"2024-02-04", "happy", 3, ""⟩, ⟨"2024-02-05", "tired", 4, ""⟩]
    let recent := recentLogs logs "2024-02-01"
    let avg : ℚ :=
      Rat.divInt (recent.map (·.productivity)).sum (recent.map (·.productivity)).length
    let negative_count := (recent.map (·.mood)).countP fun m => negative_moods.contains m
    let base :=
      if (8 : ℚ) ≤ avg then [sugExcellent]
      else if (6 : ℚ) ≤ avg then [sugGood]
      else if (4 : ℚ) ≤ avg then [sugNotBad]
      else sugImproveBlock
    let sugg := base ++
      (if Rat.divInt ((recent.map (·.mood)).length : ℤ) 2 < (negative_count : ℚ) then
        sugToughBlock
      else [])
    get_insights logs "2024-02-01" = .ok avg sugg ∧
    (sugg.length = 1 ∨ sugg.length = 4 ∨ sugg.length = 5 ∨ sugg.length = 8) ∧
    1 ≤ sugg.length ∧ sugg.length ≤ 8 :=
  insights_suggestions _ "2024-02-01" (by decide) (by decide)

/-! ## Claim C9 — exact (case-sensitive) mood comparison -/

/-- Looking a key up in the association list built by the
`mood_count` loop returns that key's exact-equality occurrence count. -/
theorem lookupCount_incrCount (l : List (String × ℕ)) (k m : String) :
    lookupCount (incrCount l k) m = lookupCount l m + (if k = m then 1 else 0) := by
  induction l with
  | nil => by_cases h : k = m <;> simp [incrCount, lookupCount, h]
  | cons p rest ih =>
      obtain ⟨a, v⟩ := p
      by_cases hak : a = k
      · subst hak
        by_cases ham : a = m <;> simp [incrCount, lookupCount, ham]
      · by_cases ham : a = m
        · subst ham
          have hka : ¬ k = a := fun h => hak h.symm
          simp [incrCount, hak, lookupCount, hka]
        · simp [incrCount, hak, lookupCount, ham, ih]

/-- Folding the counting loop over `ms` adds each element's count. -/
theorem lookupCount_foldl (ms : List String) (acc : List (String × ℕ)) (m : String) :
    lookupCount (ms.foldl incrCount acc) m = lookupCount acc m + ms.count m := by
  induction ms generalizing acc with
  | nil => simp
  | cons x xs ih =>
      simp only [List.foldl_cons, ih, lookupCount_incrCount, List.count_cons]
      by_cases h : x = m
      · simp [h]
        omega
      · simp [h]

/-- `mood_count` counts by exact string equality. -/
theorem buildCounts_count (ms : List String) (m : String) :
    lookupCount (buildCounts ms) m = ms.count m := by
  simpa [buildCounts, lookupCount] using lookupCount_foldl ms [] m

/-- C9: aggregation compares mood strings exactly.  The
`mood_distribution` of a summary is the exact-equality occurrence
count, so two casings of one word are two distinct moods (the concrete
`"Happy"`/`"happy"` collection below gets counts 1 and 2 and
most-common mood `"happy"`), and an entry counts toward the
negative-mood total of `get_insights` iff its stored mood is exactly
one of the lowercase `sad`/`angry`/`anxious`/`tired` (a recent all-
`"Sad"` collection below does NOT trigger the self-care block, while
the same collection with `"sad"` does). -/
theorem mood_aggregation_case_sensitive (ms : List String) (m : String)
    (logs : List LogEntry) (s : Summary)
    (h : get_summary logs = .ok (.ok s)) :
    lookupCount (buildCounts ms) m = ms.count m ∧
    s.mood_distribution = buildCounts (logs.map (·.mood)) ∧
    (m ∈ negative_moods ↔ m = "sad" ∨ m = "angry" ∨ m = "anxious" ∨ m = "tired") ∧
    get_summary [⟨"2024-01-01", "Happy", 5, ""⟩, ⟨"2024-01-02", "happy", 6, ""⟩,
        ⟨"2024-01-03", "happy", 7, ""⟩] =
      .ok (.ok ⟨3, 6, "happy", [("Happy", 1), ("happy", 2)], "Wednesday", 7⟩) ∧
    get_insights [⟨"2026-10-10", "Sad", 2, ""⟩] "2026-10-05" = .ok 2 sugImproveBlock ∧
    get_insights [⟨"2026-10-10", "sad", 2, ""⟩] "2026-10-05" =
      .ok 2 (sugImproveBlock ++ sugToughBlock) := by
  refine ⟨buildCounts_count ms m, ?_, by simp [negative_moods], by decide, by decide,
    by decide⟩
  by_cases hne : logs.isEmpty
  · simp [get_summary, hne] at h
  · simp only [get_summary, hne, Bool.false_eq_true, if_false] at h
    cases hd : buildDayProd logs with
    | error e => rw [hd] at h; simp [Bind.bind, Except.bind] at h
    | ok dp =>
        rw [hd] at h
        simp only [Bind.bind, Except.bind, Pure.pure, Except.pure, Except.ok.injEq] at h
        cases h with
        | refl => rfl

/-- C9 witness: the theorem at the `"Happy"`/`"happy"` collection. -/
theorem mood_aggregation_case_sensitive_witness :
    lookupCount (buildCounts ["Happy", "happy", "happy"]) "Happy" =
      ["Happy", "happy", "happy"].count "Happy" ∧
    (Summary.mk 3 6 "happy" [("Happy", 1), ("happy", 2)] "Wednesday" 7).mood_distribution =
      buildCounts (([⟨"2024-01-01", "Happy", 5, ""⟩, ⟨"2024-01-02", "happy", 6, ""⟩,
        ⟨"2024-01-03", "happy", 7, ""⟩] : List LogEntry).map (·.mood)) ∧
    ("Happy" ∈ negative_moods ↔ "Happy" = "sad" ∨ "Happy" = "angry" ∨
      "Happy" = "anxious" ∨ "Happy" = "tired") ∧
    get_summary [⟨"2024-01-01", "Happy", 5, ""⟩, ⟨"2024-01-02", "happy", 6, ""⟩,
        ⟨"2024-01-03", "happy", 7, ""⟩] =
      .ok (.ok ⟨3, 6, "happy", [("Happy", 1), ("happy", 2)], "Wednesday", 7⟩) ∧
    get_insights [⟨"2026-10-10", "Sad", 2, ""⟩] "2026-10-05" = .ok 2 sugImproveBlock ∧
    get_insights [⟨"2026-10-10", "sad", 2, ""⟩] "2026-10-05" =
      .ok 2 (sugImproveBlock ++ sugToughBlock) :=
  mood_aggregation_case_sensitive ["Happy", "happy", "happy"] "Happy" _ _ (by decide)

/-! ## Claim C10 — one malformed row empties the whole collection -/

/-- If converting any reachable row fails, the whole loop fails. -/
theorem mapEntries_fails (hdr r : List String) (rows : List (List String))
    (hr : r ∈ rows) (hfail : (entryOfRow hdr r).isOk = false) :
    (mapEntries hdr rows).isOk = false := by
  induction rows with
  | nil => cases hr
  | cons x xs ih =>
      rcases List.mem_cons.mp hr with rfl | hmem
      · cases hx : entryOfRow hdr r with
        | error e => simp [mapEntries, hx, Bind.bind, Except.bind, Except.isOk, Except.toBool]
        | ok v => rw [hx] at hfail; simp [Except.isOk, Except.toBool] at hfail
      · cases hx : entryOfRow hdr x with
        | error e => simp [mapEntries, hx, Bind.bind, Except.bind, Except.isOk, Except.toBool]
        | ok v =>
            have := ih hmem
            cases hxs : mapEntries hdr xs with
            | error e =>
                simp [mapEntries, hx, hxs, Bind.bind, Except.bind, Except.isOk, Except.toBool]
            | ok l => rw [hxs] at this; simp [Except.isOk, Except.toBool] at this

/-- C10: a store whose CSV text parses but contains one row that fails
entry conversion (e.g. a non-integer productivity) loads as the EMPTY
collection — the other well-formed rows are dropped too — so the list
endpoint returns `[]`, the summary reports "No data available", and
update/delete answer 400 at every index, leaving the file unchanged. -/
theorem malformed_row_empties_load (content : String) (hdr r : List String)
    (rows : List (List String)) (idx : ℤ) (data : ReqData)
    (hparse : loadRows content = Option.some (hdr :: rows))
    (hr : r ∈ rows) (hfail : (entryOfRow hdr r).isOk = false) :
    load_all_logs content = [] ∧
    get_logs content = [] ∧
    get_summary (load_all_logs content) = .ok (.err "No data available") ∧
    edit_log content idx data = .ok (content, jsonError 400 "Invalid log index") ∧
    delete_log content idx = .ok (content, jsonError 400 "Invalid log index") := by
  have hload : load_all_logs content = [] := by
    have := mapEntries_fails hdr r rows hr hfail
    cases hm : mapEntries hdr rows with
    | ok l => rw [hm] at this; simp [Except.isOk, Except.toBool] at this
    | error e => simp [load_all_logs, loadLogsE, hparse, hm]
  have hidx : idx < 0 ∨ ((load_all_logs content).length : ℤ) ≤ idx := by
    rw [hload]; simp; omega
  refine ⟨hload, hload, by rw [hload]; rfl, ?_, ?_⟩
  · simp [edit_log, hidx, Pure.pure, Except.pure]
  · simp [delete_log, hidx]

/-- C10 witness: a header plus a malformed row (`productivity` text
`"oops"`) followed by a perfectly well-formed row. -/
theorem malformed_row_empties_load_witness :
    load_all_logs "date,mood,productivity,note\r\n2024-01-01,happy,oops,x\r\n2024-01-02,sad,5,y\r\n" = [] ∧
    get_logs "date,mood,productivity,note\r\n2024-01-01,happy,oops,x\r\n2024-01-02,sad,5,y\r\n" = [] ∧
    get_summary (load_all_logs "date,mood,productivity,note\r\n2024-01-01,happy,oops,x\r\n2024-01-02,sad,5,y\r\n") =
      .ok (.err "No data available") ∧
    edit_log "date,mood,productivity,note\r\n2024-01-01,happy,oops,x\r\n2024-01-02,sad,5,y\r\n" 1
        ⟨Option.none, Option.none, Option.none, Option.none⟩ =
      .ok ("date,mood,productivity,note\r\n2024-01-01,happy,oops,x\r\n2024-01-02,sad,5,y\r\n",
           jsonError 400 "Invalid log index") ∧
    delete_log "date,mood,productivity,note\r\n2024-01-01,happy,oops,x\r\n2024-01-02,sad,5,y\r\n" 1 =
      .ok ("date,mood,productivity,note\r\n2024-01-01,happy,oops,x\r\n2024-01-02,sad,5,y\r\n",
           jsonError 400 "Invalid log index") :=
  malformed_row_empties_load _ ["date", "mood", "productivity", "note"]
    ["2024-01-01", "happy", "oops", "x"]
    [["2024-01-01", "happy", "oops", "x"], ["2024-01-02", "sad", "5", "y"]] 1
    ⟨Option.none, Option.none, Option.none, Option.none⟩ (by decide) (by decide) (by decide)

/-! ## Claim C8 — round-trip through the store

Supporting lemmas: universal-newline translation leaves `\r`-free text
alone, the writer's output contains `\r` only in the `\r\n` row
terminators when no field contains `\r`, and the reader automaton
consumes one encoded field / row at a time. -/

theorem univNewlines_cons_ne (c : Char) (l : List Char) (h : c ≠ '\x0d') :
    univNewlines (c :: l) = c :: univNewlines l := by
  cases l with
  | nil => simp [univNewlines, h]
  | cons d ds => simp [univNewlines, h]

theorem univNewlines_append_of_no_cr (xs ys : List Char) (h : '\x0d' ∉ xs) :
    univNewlines (xs ++ ys) = xs ++ univNewlines ys := by
  induction xs with
  | nil => rfl
  | cons c cs ih =>
      have hc : c ≠ '\x0d' := fun hh => h (hh ▸ List.mem_cons_self _ _)
      have hcs : '\x0d' ∉ cs := fun hh => h (List.mem_cons_of_mem _ hh)
      rw [List.cons_append, univNewlines_cons_ne c _ hc, ih hcs]
      simp

theorem univNewlines_crlf (l : List Char) :
    univNewlines ('\x0d' :: '\n' :: l) = '\n' :: univNewlines l := rfl

theorem escapeQuotes_cons_ne (a : Char) (l : List Char) (h : a ≠ '"') :
    escapeQuotes (a :: l) = a :: escapeQuotes l := by
  simp [escapeQuotes, h]

theorem mem_escapeQuotes (c : Char) (l : List Char) (h : c ∈ escapeQuotes l) : c ∈ l := by
  induction l with
  | nil => simp [escapeQuotes] at h
  | cons a as ih =>
      by_cases ha : a = '"'
      · subst ha
        simp only [escapeQuotes] at h
        rcases List.mem_cons.mp h with rfl | h2
        · exact List.mem_cons_self _ _
        · rcases List.mem_cons.mp h2 with rfl | h3
          · exact List.mem_cons_self _ _
          · exact List.mem_cons_of_mem _ (ih h3)
      · rw [escapeQuotes_cons_ne a as ha] at h
        rcases List.mem_cons.mp h with rfl | h2
        · exact List.mem_cons_self _ _
        · exact List.mem_cons_of_mem _ (ih h2)

theorem needsQuote_false_mem {cs : List Char} {c : Char} (h : needsQuote cs = false)
    (hm : c ∈ cs) : c ≠ ',' ∧ c ≠ '"' ∧ c ≠ '\x0d' ∧ c ≠ '\n' := by
  simp only [needsQuote, List.any_eq_false, Bool.or_eq_true, not_or,
    decide_eq_true_eq] at h
  have := h c hm
  tauto

theorem no_cr_encodeField (s : String) (h : '\x0d' ∉ s.data) :
    '\x0d' ∉ encodeField s := by
  unfold encodeField
  by_cases hq : needsQuote s.data
  · rw [if_pos hq]
    intro hmem
    rcases List.mem_cons.mp hmem with hh | hmem2
    · exact absurd hh.symm (by decide)
    · rcases List.mem_append.mp hmem2 with h3 | h4
      · exact h (mem_escapeQuotes _ _ h3)
      · simp at h4
  · rw [if_neg hq]
    exact h

theorem no_cr_encodeFields (fields : List String)
    (h : ∀ f ∈ fields, '\x0d' ∉ f.data) : '\x0d' ∉ encodeFields fields := by
  induction fields with
  | nil => simp [encodeFields]
  | cons f fs ih =>
      cases fs with
      | nil =>
          simpa [encodeFields] using
            no_cr_encodeField f (h f (List.mem_cons_self _ _))
      | cons g gs =>
          simp only [encodeFields]
          intro hmem
          rcases List.mem_append.mp hmem with h1 | h2
          · exact no_cr_encodeField f (h f (List.mem_cons_self _ _)) h1
          · rcases List.mem_cons.mp h2 with hh | h3
            · exact absurd hh.symm (by decide)
            · exact ih (fun g hg => h g (List.mem_cons_of_mem _ hg)) h3

theorem csvRun_bare_run (xs : List Char) (h : ∀ c ∈ xs, c ≠ '\n' ∧ c ≠ ',')
    (tail : List Char) (acc : List Char) (r : List String) (rs : List (List String)) :
    csvRun (xs ++ tail) .bare acc r rs = csvRun tail .bare (xs.reverse ++ acc) r rs := by
  induction xs generalizing acc with
  | nil => simp
  | cons x xs ih =>
      obtain ⟨hn, hc⟩ := h x (List.mem_cons_self _ _)
      rw [List.cons_append]
      simp only [csvRun, if_neg hn, if_neg hc]
      rw [ih (fun c hm => h c (List.mem_cons_of_mem _ hm))]
      simp

theorem csvRun_quoted_run (xs tail : List Char) (acc : List Char) (r : List String)
    (rs : List (List String)) :
    csvRun (escapeQuotes xs ++ tail) .quoted acc r rs =
      csvRun tail .quoted (xs.reverse ++ acc) r rs := by
  induction xs generalizing acc with
  | nil => simp [escapeQuotes]
  | cons x xs ih =>
      by_cases hx : x = '"'
      · subst hx
        simp only [escapeQuotes, List.cons_append]
        simp only [csvRun, if_pos rfl]
        rw [ih]
        simp
      · rw [escapeQuotes_cons_ne x xs hx, List.cons_append]
        simp only [csvRun, if_neg hx]
        rw [ih]
        simp

theorem csvRun_field_comma (f : String) (mode : CsvMode)
    (hmode : mode = .startRow ∨ mode = .startField) (tail : List Char)
    (r : List String) (rs : List (List String)) :
    csvRun (encodeField f ++ ',' :: tail) mode [] r rs =
      csvRun tail .startField [] (f :: r) rs := by
  unfold encodeField
  by_cases hq : needsQuote f.data = true
  · rw [if_pos hq]
    have hre : ('"' :: (escapeQuotes f.data ++ ['"'])) ++ ',' :: tail
        = '"' :: (escapeQuotes f.data ++ ('"' :: ',' :: tail)) := by simp
    rw [hre]
    have h1 : csvRun ('"' :: (escapeQuotes f.data ++ ('"' :: ',' :: tail))) mode [] r rs =
        csvRun (escapeQuotes f.data ++ ('"' :: ',' :: tail)) .quoted [] r rs := by
      rcases hmode with rfl | rfl <;> simp [csvRun]
    rw [h1, csvRun_quoted_run]
    simp [csvRun]
  · rw [if_neg hq]
    have hq' : needsQuote f.data = false := by simpa using hq
    obtain ⟨fd⟩ := f
    cases fd with
    | nil => rcases hmode with rfl | rfl <;> simp [csvRun]
    | cons c cs =>
        have hmem : ∀ x ∈ c :: cs, x ≠ ',' ∧ x ≠ '"' ∧ x ≠ '\x0d' ∧ x ≠ '\n' :=
          fun x hx => needsQuote_false_mem hq' hx
        have hc := hmem c (List.mem_cons_self _ _)
        have h1 : csvRun ((c :: cs) ++ ',' :: tail) mode [] r rs =
            csvRun (cs ++ ',' :: tail) .bare [c] r rs := by
          rcases hmode with rfl | rfl <;> simp [csvRun, hc.2.2.2, hc.2.1, hc.1]
        show csvRun ((c :: cs) ++ ',' :: tail) mode [] r rs = _
        rw [h1, csvRun_bare_run cs (fun x hx =>
          ⟨(hmem x (List.mem_cons_of_mem _ hx)).2.2.2,
           (hmem x (List.mem_cons_of_mem _ hx)).1⟩)]
        simp [csvRun]

theorem csvRun_field_newline (f : String) (tail : List Char) (r : List String)
    (rs : List (List String)) :
    csvRun (encodeField f ++ '\n' :: tail) .startField [] r rs =
      csvRun tail .startRow [] [] ((f :: r).reverse :: rs) := by
  unfold encodeField
  by_cases hq : needsQuote f.data = true
  · rw [if_pos hq]
    have hre : ('"' :: (escapeQuotes f.data ++ ['"'])) ++ '\n' :: tail
        = '"' :: (escapeQuotes f.data ++ ('"' :: '\n' :: tail)) := by simp
    rw [hre]
    have h1 : csvRun ('"' :: (escapeQuotes f.data ++ ('"' :: '\n' :: tail)))
        .startField [] r rs =
        csvRun (escapeQuotes f.data ++ ('"' :: '\n' :: tail)) .quoted [] r rs := by
      simp [csvRun]
    rw [h1, csvRun_quoted_run]
    simp [csvRun]
  · rw [if_neg hq]
    have hq' : needsQuote f.data = false := by simpa using hq
    obtain ⟨fd⟩ := f
    cases fd with
    | nil => simp [csvRun]
    | cons c cs =>
        have hmem : ∀ x ∈ c :: cs, x ≠ ',' ∧ x ≠ '"' ∧ x ≠ '\x0d' ∧ x ≠ '\n' :=
          fun x hx => needsQuote_false_mem hq' hx
        have hc := hmem c (List.mem_cons_self _ _)
        have h1 : csvRun ((c :: cs) ++ '\n' :: tail) .startField [] r rs =
            csvRun (cs ++ '\n' :: tail) .bare [c] r rs := by
          simp [csvRun, hc.2.2.2, hc.2.1, hc.1]
        show csvRun ((c :: cs) ++ '\n' :: tail) .startField [] r rs = _
        rw [h1, csvRun_bare_run cs (fun x hx =>
          ⟨(hmem x (List.mem_cons_of_mem _ hx)).2.2.2,
           (hmem x (List.mem_cons_of_mem _ hx)).1⟩)]
        simp [csvRun]

theorem csvRun_row4 (a b c d : String) (tail : List Char) (rs : List (List String)) :
    csvRun (encodeFields [a, b, c, d] ++ '\n' :: tail) .startRow [] [] rs =
      csvRun tail .startRow [] [] ([a, b, c, d] :: rs) := by
  have he : encodeFields [a, b, c, d] =
      encodeField a ++ ',' :: (encodeField b ++ ',' ::
        (encodeField c ++ ',' :: encodeField d)) := by
    simp [encodeFields]
  rw [he]
  simp only [List.append_assoc, List.cons_append]
  rw [csvRun_field_comma a _ (Or.inl rfl), csvRun_field_comma b _ (Or.inr rfl),
    csvRun_field_comma c _ (Or.inr rfl), csvRun_field_newline d]
  simp

theorem csvRun_rows (rows : List (List String))
    (h4 : ∀ r ∈ rows, ∃ a b c d, r = [a, b, c, d]) (rs : List (List String)) :
    csvRun ((rows.map fun r => encodeFields r ++ ['\n']).flatten) .startRow [] [] rs =
      Option.some (rs.reverse ++ rows) := by
  induction rows generalizing rs with
  | nil => simp [csvRun]
  | cons r rest ih =>
      obtain ⟨a, b, c, d, rfl⟩ := h4 r (List.mem_cons_self _ _)
      simp only [List.map_cons, List.flatten_cons, List.append_assoc, List.singleton_append]
      rw [csvRun_row4, ih (fun x hx => h4 x (List.mem_cons_of_mem _ hx))]
      simp

theorem digitChar_props (k : ℕ) (h : k < 10) :
    (Char.ofNat (48 + k)).isDigit = true ∧ digitVal (Char.ofNat (48 + k)) = k ∧
    isPySpace (Char.ofNat (48 + k)) = false ∧ Char.ofNat (48 + k) ≠ '\x0d' := by
  interval_cases k <;> exact ⟨by decide, by decide, by decide, by decide⟩

theorem isDigit_not_special (c : Char) (h : c.isDigit = true) :
    isPySpace c = false ∧ c ≠ '+' ∧ c ≠ '-' ∧ c ≠ '_' ∧ c ≠ '\x0d' := by
  refine ⟨?_, ?_, ?_, ?_, ?_⟩
  · by_contra hs
    have hs' : isPySpace c = true := by simpa using hs
    simp only [isPySpace, Bool.or_eq_true, decide_eq_true_eq] at hs'
    rcases hs' with ((((rfl | rfl) | rfl) | rfl) | rfl) | rfl <;>
      exact absurd h (by decide)
  all_goals intro hc; subst hc; exact absurd h (by decide)

theorem natToDigitsAux_spec (fuel n : ℕ) (h : n < fuel) :
    natToDigitsAux fuel n ≠ [] ∧
    (∀ c ∈ natToDigitsAux fuel n, c.isDigit = true) ∧
    digitsToNat (natToDigitsAux fuel n) = n := by
  induction fuel generalizing n with
  | zero => omega
  | succ f ih =>
      by_cases hn : n < 10
      · simp only [natToDigitsAux, if_pos hn]
        refine ⟨by simp, ?_, ?_⟩
        · intro c hc
          simp only [List.mem_singleton] at hc
          subst hc
          exact (digitChar_props n hn).1
        · simp [digitsToNat, (digitChar_props n hn).2.1]
      · have hdiv : n / 10 < f := by
          have h1 : n / 10 < n := Nat.div_lt_self (by omega) (by omega)
          omega
        obtain ⟨hne, hdig, hval⟩ := ih (n / 10) hdiv
        have hm : n % 10 < 10 := Nat.mod_lt _ (by omega)
        simp only [natToDigitsAux, if_neg hn]
        refine ⟨by simp [hne], ?_, ?_⟩
        · intro c hc
          rcases List.mem_append.mp hc with h1 | h2
          · exact hdig c h1
          · simp only [List.mem_singleton] at h2
            subst h2
            exact (digitChar_props _ hm).1
        · have happ : digitsToNat (natToDigitsAux f (n / 10) ++ [Char.ofNat (48 + n % 10)]) =
              digitsToNat (natToDigitsAux f (n / 10)) * 10 +
                digitVal (Char.ofNat (48 + n % 10)) := by
            simp [digitsToNat, List.foldl_append]
          rw [happ, hval, (digitChar_props _ hm).2.1]
          omega

theorem natToDigits_spec (n : ℕ) :
    natToDigits n ≠ [] ∧ (∀ c ∈ natToDigits n, c.isDigit = true) ∧
    digitsToNat (natToDigits n) = n :=
  natToDigitsAux_spec (n + 1) n (by omega)

theorem pyDigitsGo_digits (cs : List Char) (acc : ℕ) (h : ∀ c ∈ cs, c.isDigit = true) :
    pyDigits.pyDigitsGo acc cs =
      Option.some (cs.foldl (fun a c => a * 10 + digitVal c) acc) := by
  induction cs generalizing acc with
  | nil => rfl
  | cons c cs ih =>
      have hc := h c (List.mem_cons_self _ _)
      have hcu : c ≠ '_' := (isDigit_not_special c hc).2.2.2.1
      cases cs with
      | nil => simp [pyDigits.pyDigitsGo, hcu, hc]
      | cons d ds =>
          rw [show pyDigits.pyDigitsGo acc (c :: d :: ds) =
              if c.isDigit then pyDigits.pyDigitsGo (acc * 10 + digitVal c) (d :: ds)
              else Option.none by
            simp [pyDigits.pyDigitsGo, hcu]]
          rw [if_pos hc, ih _ (fun x hx => h x (List.mem_cons_of_mem _ hx))]
          simp

theorem pyDigits_digits (cs : List Char) (hne : cs ≠ [])
    (h : ∀ c ∈ cs, c.isDigit = true) :
    pyDigits cs = Option.some (digitsToNat cs) := by
  cases cs with
  | nil => cases hne rfl
  | cons c cs' =>
      have hc := h c (List.mem_cons_self _ _)
      simp only [pyDigits, hc, if_pos]
      rw [pyDigitsGo_digits _ _ (fun x hx => h x (List.mem_cons_of_mem _ hx))]
      simp [digitsToNat]

theorem dropWhile_not_space (l : List Char) (h : ∀ c ∈ l, isPySpace c = false) :
    l.dropWhile isPySpace = l := by
  cases l with
  | nil => rfl
  | cons c cs => simp [List.dropWhile_cons, h c (List.mem_cons_self _ _)]

theorem strip_no_space (l : List Char) (h : ∀ c ∈ l, isPySpace c = false) :
    ((l.dropWhile isPySpace).reverse.dropWhile isPySpace).reverse = l := by
  rw [dropWhile_not_space l h,
    dropWhile_not_space l.reverse (fun c hc => h c (List.mem_reverse.mp hc))]
  simp

/-- `int(str(n)) = n`: the decimal rendering written to the store parses
back to the same integer. -/
theorem parseIntPy_pyStrOfInt (k : ℤ) : parseIntPy (pyStrOfInt k) = Option.some k := by
  unfold pyStrOfInt parseIntPy
  by_cases hk : k < 0
  · rw [if_pos hk]
    obtain ⟨hne, hdig, hval⟩ := natToDigits_spec (-k).toNat
    have hns : ∀ c ∈ '-' :: natToDigits (-k).toNat, isPySpace c = false := by
      intro c hc
      rcases List.mem_cons.mp hc with rfl | hm
      · decide
      · exact (isDigit_not_special c (hdig c hm)).1
    show parseIntSigned ((('-' :: natToDigits (-k).toNat).dropWhile
        isPySpace).reverse.dropWhile isPySpace).reverse = Option.some k
    rw [strip_no_space _ hns]
    simp only [parseIntSigned, if_true]
    rw [pyDigits_digits _ hne hdig, hval]
    show Option.some (-(((-k).toNat : ℕ) : ℤ)) = Option.some k
    congr 1
    omega
  · rw [if_neg hk]
    obtain ⟨hne, hdig, hval⟩ := natToDigits_spec k.toNat
    have hns : ∀ c ∈ natToDigits k.toNat, isPySpace c = false :=
      fun c hm => (isDigit_not_special c (hdig c hm)).1
    show parseIntSigned (((natToDigits k.toNat).dropWhile
        isPySpace).reverse.dropWhile isPySpace).reverse = Option.some k
    rw [strip_no_space _ hns]
    cases hd : natToDigits k.toNat with
    | nil => cases hne hd
    | cons c cs =>
        have hc : c.isDigit = true := hdig c (hd ▸ List.mem_cons_self _ _)
        simp only [parseIntSigned]
        rw [if_neg (isDigit_not_special c hc).2.1,
          if_neg (isDigit_not_special c hc).2.2.1]
        rw [← hd, pyDigits_digits _ hne hdig, hval]
        show Option.some ((k.toNat : ℕ) : ℤ) = Option.some k
        congr 1
        omega

/-- Fields of this entry contain no carriage return.  (`\x0d` inside a
field is exactly what universal-newline translation corrupts on read.) -/
def crFree (e : LogEntry) : Bool :=
  decide ('\x0d' ∉ e.date.data) && decide ('\x0d' ∉ e.mood.data) &&
    decide ('\x0d' ∉ e.note.data)

theorem no_cr_pyStrOfInt (n : ℤ) : '\x0d' ∉ (pyStrOfInt n).data := by
  unfold pyStrOfInt
  by_cases hn : n < 0
  · rw [if_pos hn]
    intro hmem
    rcases List.mem_cons.mp hmem with hh | hm
    · exact absurd hh (by decide)
    · exact absurd ((natToDigits_spec (-n).toNat).2.1 _ hm) (by decide)
  · rw [if_neg hn]
    intro hmem
    exact absurd ((natToDigits_spec n.toNat).2.1 _ hmem) (by decide)

theorem no_cr_rowOfEntry (e : LogEntry) (h : crFree e = true) :
    ∀ f ∈ rowOfEntry e, '\x0d' ∉ f.data := by
  simp only [crFree, Bool.and_eq_true, decide_eq_true_eq] at h
  intro f hf
  simp only [rowOfEntry, List.mem_cons, List.mem_singleton] at hf
  rcases hf with rfl | rfl | rfl | hf
  · exact h.1.1
  · exact h.1.2
  · exact no_cr_pyStrOfInt e.productivity
  · rcases hf with rfl | hf
    · exact h.2
    · cases hf

theorem univNewlines_flatten_rows (rows : List (List String))
    (h : ∀ r ∈ rows, '\x0d' ∉ encodeFields r) :
    univNewlines ((rows.map encodeRow).flatten) =
      ((rows.map fun r => encodeFields r ++ ['\n']).flatten) := by
  induction rows with
  | nil => rfl
  | cons r rest ih =>
      simp only [List.map_cons, List.flatten_cons]
      have hre : encodeRow r ++ ((rest.map encodeRow).flatten) =
          encodeFields r ++ ('\x0d' :: '\n' :: ((rest.map encodeRow).flatten)) := by
        simp [encodeRow]
      rw [hre, univNewlines_append_of_no_cr _ _ (h r (List.mem_cons_self _ _)),
        univNewlines_crlf, ih (fun x hx => h x (List.mem_cons_of_mem _ hx))]
      simp

theorem loadRows_save (logs : List LogEntry) (h : ∀ e ∈ logs, crFree e = true) :
    loadRows (save_all_logs logs) = Option.some (csvHeader :: logs.map rowOfEntry) := by
  unfold loadRows
  have hdata : (save_all_logs logs).data =
      (((csvHeader :: logs.map rowOfEntry).map encodeRow).flatten) := by
    simp [save_all_logs, List.map_map, Function.comp_def]
  have hcr : ∀ r ∈ csvHeader :: logs.map rowOfEntry, '\x0d' ∉ encodeFields r := by
    intro r hr
    rcases List.mem_cons.mp hr with rfl | hm
    · decide
    · obtain ⟨e, he, rfl⟩ := List.mem_map.mp hm
      exact no_cr_encodeFields _ (no_cr_rowOfEntry e (h e he))
  have h4 : ∀ r ∈ csvHeader :: logs.map rowOfEntry, ∃ a b c d, r = [a, b, c, d] := by
    intro r hr
    rcases List.mem_cons.mp hr with rfl | hm
    · exact ⟨"date", "mood", "productivity", "note", rfl⟩
    · obtain ⟨e, _, rfl⟩ := List.mem_map.mp hm
      exact ⟨e.date, e.mood, pyStrOfInt e.productivity, e.note, rfl⟩
  rw [hdata, univNewlines_flatten_rows _ hcr, csvRun_rows _ h4 []]
  simp

theorem entryOfRow_rowOfEntry (e : LogEntry) :
    entryOfRow csvHeader (rowOfEntry e) = .ok e := by
  have h2 : rowVal csvHeader (rowOfEntry e) "productivity" =
      .ok (Option.some (pyStrOfInt e.productivity)) := rfl
  simp only [entryOfRow, Bind.bind, Except.bind, rowVal, csvHeader, rowOfEntry]
  show (match parseIntPy (pyStrOfInt e.productivity) with
    | Option.none => (Except.error PyErr.valueError : Except PyErr LogEntry)
    | Option.some k =>
        match Option.some e.date, Option.some e.mood, Option.some e.note with
        | Option.some ds, Option.some ms, Option.some ns => .ok ⟨ds, ms, k, ns⟩
        | _, _, _ => .error .typeError) = .ok e
  rw [parseIntPy_pyStrOfInt]

theorem mapEntries_rowOfEntry (logs : List LogEntry) :
    mapEntries csvHeader (logs.map rowOfEntry) = .ok logs := by
  induction logs with
  | nil => rfl
  | cons e rest ih =>
      simp [mapEntries, entryOfRow_rowOfEntry, ih, Bind.bind, Except.bind,
        Pure.pure, Except.pure]

/-- C8, counterexample: `replaceAll(loadAll())` is NOT always a no-op.
The writer stores a note containing a bare `\x0d` inside a quoted field
(writes are done with `newline=''`), but the reader opens the file in
universal-newline mode, which turns that `\x0d` into `\n`; rewriting
what was loaded therefore changes the stored bytes (and the loaded
record differs from the one that was saved). -/
theorem replaceAll_loadAll_counterexample :
    save_all_logs (load_all_logs (save_all_logs [⟨"2024-01-01", "happy", 5, "a\x0db"⟩])) ≠
      save_all_logs [⟨"2024-01-01", "happy", 5, "a\x0db"⟩] ∧
    load_all_logs (save_all_logs [⟨"2024-01-01", "happy", 5, "a\x0db"⟩]) =
      [⟨"2024-01-01", "happy", 5, "a\nb"⟩] := by decide

/-- C8, amended: for every collection whose fields contain no carriage
return — which includes everything expressible in the store's own
single-line rows except `\x0d` itself — loading what was saved returns
exactly the same records, and `replaceAll(loadAll())` leaves the stored
bytes unchanged. -/
theorem replaceAll_loadAll_roundtrip (logs : List LogEntry)
    (h : ∀ e ∈ logs, crFree e = true) :
    load_all_logs (save_all_logs logs) = logs ∧
    save_all_logs (load_all_logs (save_all_logs logs)) = save_all_logs logs := by
  have hl : load_all_logs (save_all_logs logs) = logs := by
    simp [load_all_logs, loadLogsE, loadRows_save logs h, mapEntries_rowOfEntry]
  exact ⟨hl, by rw [hl]⟩

/-- C8 witness: a round trip through a note exercising quoting (comma,
quote, newline). -/
theorem replaceAll_loadAll_roundtrip_witness :
    load_all_logs (save_all_logs [⟨"2024-01-01", "happy", 5, "a,b\"c\nd"⟩,
      ⟨"2024-01-02", "sad", 10, ""⟩]) =
      [⟨"2024-01-01", "happy", 5, "a,b\"c\nd"⟩, ⟨"2024-01-02", "sad", 10, ""⟩] ∧
    save_all_logs (load_all_logs (save_all_logs [⟨"2024-01-01", "happy", 5, "a,b\"c\nd"⟩,
      ⟨"2024-01-02", "sad", 10, ""⟩])) =
      save_all_logs [⟨"2024-01-01", "happy", 5, "a,b\"c\nd"⟩, ⟨"2024-01-02", "sad", 10, ""⟩] :=
  replaceAll_loadAll_roundtrip _ (by decide)
